import Mathlib

/-!
# Ads analytics: aggregation and top-N ranking

A shallow embedding of `internal/analyzer/analyzer.go` and `internal/models/models.go`.

The analyzer hands two SQL queries to an embedded engine and scans the rows that come back
into `CampaignMetrics`.  The embedding follows the queries clause by clause:

* `FROM read_csv_auto(..)`        : the parsed rows, a `List CampaignRecord`;
* `GROUP BY campaign_id` + `SUM`  : `groupBy`, one `Group` per distinct campaign id;
* `HAVING ..`                     : a filter on the groups;
* the `SELECT` list               : `selectTopCTR` / `selectTopCPA`, with SQL `NULL` as `none`;
* `ORDER BY ctr DESC` / `cpa ASC` : a sort on the one key the query names;
* `LIMIT n`                       : `List.take`;
* `rows.Scan`                     : `scanRow`, which fails on a `NULL` for a non-pointer field.

Modelling choices:

* `DOUBLE` / `float64` values are exact rationals (`ℚ`), so rounding and the order of float
  accumulation are not modelled: two quotients that differ here may round to one `float64` in
  the program and tie there.  Statements that depend on ties therefore put their conditions on
  the CTR and CPA values a run returns.  Integer sums are unbounded `Int` (the engine sums into
  a wider type) and must fit `int64` when a row is scanned.
* The SQL text leaves two things to the engine: the order in which groups are produced and the
  relative order of rows whose sort key is equal.  Both are captured by `Engine.arrange`, an
  arbitrary permutation applied to the rows before a stable sort.  Every result the query text
  allows is the result for some `Engine`, and statements about the program quantify over it.
  The two queries of `AnalyzeCSV` are run independently, each with an engine of its own.
* Failures of the engine itself (opening or parsing the file, a file without data rows, a
  missing campaign id) are outside the model; the failure inside it is the scan error of
  `executeQuery`, wrapped by `AnalyzeCSV`.  Statements are about the results that come back.
-/

namespace AdsAnalytics

/-! ## Data model (`internal/models/models.go`) -/

/-- One input row: `models.CampaignRecord`. -/
structure CampaignRecord where
  CampaignID : String
  Date : String
  Impressions : Int
  Clicks : Int
  Spend : ℚ
  Conversions : Int
deriving DecidableEq

/-- One output row: `models.CampaignMetrics`.  `CPA` is `*float64`, so it may be nil. -/
structure CampaignMetrics where
  CampaignID : String
  TotalImpressions : Int
  TotalClicks : Int
  TotalSpend : ℚ
  TotalConversions : Int
  CTR : ℚ
  CPA : Option ℚ
deriving DecidableEq

/-- The packaged output: `models.AnalysisResult`. -/
structure AnalysisResult where
  TopCTR : List CampaignMetrics
  TopCPA : List CampaignMetrics
deriving DecidableEq

/-! ## The SQL queries -/

/-- The aggregates of one `GROUP BY campaign_id` group. -/
structure Group where
  campaign_id : String
  total_impressions : Int
  total_clicks : Int
  total_spend : ℚ
  total_conversions : Int
deriving DecidableEq

/-- A row of a query result before it is scanned; `ctr` and `cpa` may be SQL `NULL`. -/
structure Row where
  campaign_id : String
  total_impressions : Int
  total_clicks : Int
  total_spend : ℚ
  total_conversions : Int
  ctr : Option ℚ
  cpa : Option ℚ
deriving DecidableEq

/-- The records of one campaign. -/
def recordsOf (recs : List CampaignRecord) (id : String) : List CampaignRecord :=
  recs.filter (fun r => decide (r.CampaignID = id))

/-- `SUM(impressions)` over the records of campaign `id`. -/
def sumImpressions (recs : List CampaignRecord) (id : String) : Int :=
  ((recordsOf recs id).map (fun r => r.Impressions)).sum

/-- `SUM(clicks)` over the records of campaign `id`. -/
def sumClicks (recs : List CampaignRecord) (id : String) : Int :=
  ((recordsOf recs id).map (fun r => r.Clicks)).sum

/-- `SUM(spend)` over the records of campaign `id`. -/
def sumSpend (recs : List CampaignRecord) (id : String) : ℚ :=
  ((recordsOf recs id).map (fun r => r.Spend)).sum

/-- `SUM(conversions)` over the records of campaign `id`. -/
def sumConversions (recs : List CampaignRecord) (id : String) : Int :=
  ((recordsOf recs id).map (fun r => r.Conversions)).sum

/-- The distinct grouping keys of `GROUP BY campaign_id`. -/
def groupKeys (recs : List CampaignRecord) : List String :=
  (recs.map (fun r => r.CampaignID)).dedup

/-- The `SUM` aggregates of the group with key `id`. -/
def aggregate (recs : List CampaignRecord) (id : String) : Group :=
  { campaign_id := id
    total_impressions := sumImpressions recs id
    total_clicks := sumClicks recs id
    total_spend := sumSpend recs id
    total_conversions := sumConversions recs id }

/-- `GROUP BY campaign_id` with the five aggregates: one group per distinct campaign id. -/
def groupBy (recs : List CampaignRecord) : List Group :=
  (groupKeys recs).map (aggregate recs)

/-- SQL `NULLIF(x, y)`: `NULL` when `x = y`, else `x`. -/
def nullif (x y : Int) : Option Int :=
  if x = y then none else some x

/-- SQL `/` in floating point, with `NULL` propagated from either operand and a zero divisor
giving `NULL`.  The zero-divisor branch is never taken by the two queries: the divisor is behind
`NULLIF(.., 0)`, behind `CASE WHEN .. > 0`, or behind `HAVING .. > 0`. -/
def sqlDiv : Option ℚ → Option ℚ → Option ℚ
  | some x, some y => if y = 0 then none else some (x / y)
  | _, _ => none

/-- `CAST(SUM(clicks) AS DOUBLE) / NULLIF(SUM(impressions), 0) as ctr`. -/
def ctrExpr (g : Group) : Option ℚ :=
  sqlDiv (some (g.total_clicks : ℚ)) ((nullif g.total_impressions 0).map (fun d => (d : ℚ)))

/-- `CASE WHEN SUM(conversions) > 0 THEN SUM(spend) / SUM(conversions) ELSE NULL END as cpa`. -/
def cpaCaseExpr (g : Group) : Option ℚ :=
  if g.total_conversions > 0 then sqlDiv (some g.total_spend) (some (g.total_conversions : ℚ))
  else none

/-- `SUM(spend) / SUM(conversions) as cpa`. -/
def cpaDivExpr (g : Group) : Option ℚ :=
  sqlDiv (some g.total_spend) (some (g.total_conversions : ℚ))

/-- The `SELECT` list of the query in `getTopCTR`. -/
def selectTopCTR (g : Group) : Row :=
  { campaign_id := g.campaign_id
    total_impressions := g.total_impressions
    total_clicks := g.total_clicks
    total_spend := g.total_spend
    total_conversions := g.total_conversions
    ctr := ctrExpr g
    cpa := cpaCaseExpr g }

/-- The `SELECT` list of the query in `getTopCPA`. -/
def selectTopCPA (g : Group) : Row :=
  { campaign_id := g.campaign_id
    total_impressions := g.total_impressions
    total_clicks := g.total_clicks
    total_spend := g.total_spend
    total_conversions := g.total_conversions
    ctr := ctrExpr g
    cpa := cpaDivExpr g }

/-- `ORDER BY k DESC` on a nullable key: `a` may stand before `b`.  `NULL`s sort last. -/
def descNullsLast : Option ℚ → Option ℚ → Bool
  | _, none => true
  | none, some _ => false
  | some x, some y => decide (y ≤ x)

/-- `ORDER BY k ASC` on a nullable key: `a` may stand before `b`.  `NULL`s sort last. -/
def ascNullsLast : Option ℚ → Option ℚ → Bool
  | _, none => true
  | none, some _ => false
  | some x, some y => decide (x ≤ y)

/-- `ORDER BY ctr DESC`. -/
def ctrDesc (a b : Row) : Prop := descNullsLast a.ctr b.ctr = true

/-- `ORDER BY cpa ASC`. -/
def cpaAsc (a b : Row) : Prop := ascNullsLast a.cpa b.cpa = true

instance : DecidableRel ctrDesc := fun a b => by unfold ctrDesc; infer_instance

instance : DecidableRel cpaAsc := fun a b => by unfold cpaAsc; infer_instance

instance : IsTotal Row ctrDesc :=
  ⟨fun a b => by
    show descNullsLast a.ctr b.ctr = true ∨ descNullsLast b.ctr a.ctr = true
    generalize a.ctr = x
    generalize b.ctr = y
    cases x <;> cases y <;> simp [descNullsLast, le_total]⟩

instance : IsTrans Row ctrDesc :=
  ⟨fun a b c => by
    show descNullsLast a.ctr b.ctr = true → descNullsLast b.ctr c.ctr = true →
      descNullsLast a.ctr c.ctr = true
    generalize a.ctr = x
    generalize b.ctr = y
    generalize c.ctr = z
    cases x <;> cases y <;> cases z <;> simp [descNullsLast]
    exact fun hab hbc => le_trans hbc hab⟩

instance : IsTotal Row cpaAsc :=
  ⟨fun a b => by
    show ascNullsLast a.cpa b.cpa = true ∨ ascNullsLast b.cpa a.cpa = true
    generalize a.cpa = x
    generalize b.cpa = y
    cases x <;> cases y <;> simp [ascNullsLast, le_total]⟩

instance : IsTrans Row cpaAsc :=
  ⟨fun a b c => by
    show ascNullsLast a.cpa b.cpa = true → ascNullsLast b.cpa c.cpa = true →
      ascNullsLast a.cpa c.cpa = true
    generalize a.cpa = x
    generalize b.cpa = y
    generalize c.cpa = z
    cases x <;> cases y <;> cases z <;> simp [ascNullsLast]
    exact fun hab hbc => le_trans hab hbc⟩

/-- What the query text leaves to the engine: the order in which the grouped rows reach the
sort, hence the order of rows with equal sort keys. -/
structure Engine where
  arrange : List Row → List Row
  arrange_perm : ∀ rows, (arrange rows).Perm rows

/-- An engine that produces groups in the order `groupBy` lists them. -/
def scanOrderEngine : Engine :=
  { arrange := fun rows => rows
    arrange_perm := fun rows => List.Perm.refl rows }

/-- An engine that produces groups in the opposite order. -/
def reverseOrderEngine : Engine :=
  { arrange := fun rows => rows.reverse
    arrange_perm := fun rows => List.reverse_perm rows }

/-- The shape both queries share, `SELECT .. GROUP BY campaign_id HAVING .. ORDER BY .. LIMIT n`:
group and aggregate, keep the groups that pass `HAVING`, evaluate the `SELECT` list, let the
engine hand the rows to a stable sort on the `ORDER BY` key, keep the first `limit` rows.
The limit is a `Nat`: `AnalyzeCSV`, the only caller, passes 10. -/
def runQuery (having : Group → Bool) (select : Group → Row) (order : Row → Row → Prop)
    [DecidableRel order] (e : Engine) (recs : List CampaignRecord) (limit : Nat) : List Row :=
  (List.insertionSort order (e.arrange (((groupBy recs).filter having).map select))).take limit

/-- `HAVING SUM(impressions) > 0`. -/
def havingImpressions (g : Group) : Bool := decide (g.total_impressions > 0)

/-- `HAVING SUM(conversions) > 0`. -/
def havingConversions (g : Group) : Bool := decide (g.total_conversions > 0)

/-- The rows of the query built in `getTopCTR`. -/
def queryTopCTR (e : Engine) (recs : List CampaignRecord) (limit : Nat) : List Row :=
  runQuery havingImpressions selectTopCTR ctrDesc e recs limit

/-- The rows of the query built in `getTopCPA`. -/
def queryTopCPA (e : Engine) (recs : List CampaignRecord) (limit : Nat) : List Row :=
  runQuery havingConversions selectTopCPA cpaAsc e recs limit

/-! ## Scanning rows (`executeQuery`) and the entry point -/

/-- The failures of the analyzer. -/
inductive AnalyzeError where
  | scanRow : AnalyzeError
  | topCTR : AnalyzeError → AnalyzeError
  | topCPA : AnalyzeError → AnalyzeError
deriving DecidableEq

/-- Whether an integer fits an `int64` field of `CampaignMetrics`. -/
def fitsInt64 (x : Int) : Bool :=
  decide (-9223372036854775808 ≤ x ∧ x ≤ 9223372036854775807)

/-- `rows.Scan(..)` into a `CampaignMetrics`: the three integer totals go into `int64` fields,
so a total out of that range is a scan error; `CTR` is a plain `float64`, so a `NULL` there is a
scan error; `CPA` is a `*float64`, so a `NULL` there is nil. -/
def scanRow (r : Row) : Except AnalyzeError CampaignMetrics :=
  if fitsInt64 r.total_impressions && fitsInt64 r.total_clicks &&
      fitsInt64 r.total_conversions then
    match r.ctr with
    | none => .error .scanRow
    | some c =>
      .ok { CampaignID := r.campaign_id
            TotalImpressions := r.total_impressions
            TotalClicks := r.total_clicks
            TotalSpend := r.total_spend
            TotalConversions := r.total_conversions
            CTR := c
            CPA := r.cpa }
  else .error .scanRow

/-- The loop of `executeQuery`: scan each row in turn, stop at the first scan error. -/
def executeQuery : List Row → Except AnalyzeError (List CampaignMetrics)
  | [] => .ok []
  | r :: rs =>
    match scanRow r with
    | .error err => .error err
    | .ok m =>
      match executeQuery rs with
      | .error err => .error err
      | .ok ms => .ok (m :: ms)

/-- `Analyzer.getTopCTR`. -/
def getTopCTR (e : Engine) (recs : List CampaignRecord) (limit : Nat) :
    Except AnalyzeError (List CampaignMetrics) :=
  executeQuery (queryTopCTR e recs limit)

/-- `Analyzer.getTopCPA`. -/
def getTopCPA (e : Engine) (recs : List CampaignRecord) (limit : Nat) :
    Except AnalyzeError (List CampaignMetrics) :=
  executeQuery (queryTopCPA e recs limit)

/-- `Analyzer.AnalyzeCSV`: both views with limit 10, either failure wrapped and returned.  The
two queries are separate runs of the engine: `eCTR` serves the first, `eCPA` the second. -/
def AnalyzeCSV (eCTR eCPA : Engine) (recs : List CampaignRecord) :
    Except AnalyzeError AnalysisResult :=
  match getTopCTR eCTR recs 10 with
  | .error err => .error (.topCTR err)
  | .ok topCTR =>
    match getTopCPA eCPA recs 10 with
    | .error err => .error (.topCPA err)
    | .ok topCPA => .ok { TopCTR := topCTR, TopCPA := topCPA }

/-- The row a scanned `CampaignMetrics` came from: `scanRow r = .ok m` only when
`r = rowOf m`. -/
def rowOf (m : CampaignMetrics) : Row :=
  { campaign_id := m.CampaignID
    total_impressions := m.TotalImpressions
    total_clicks := m.TotalClicks
    total_spend := m.TotalSpend
    total_conversions := m.TotalConversions
    ctr := some m.CTR
    cpa := m.CPA }

/-- The number of distinct campaigns whose total impressions are positive. -/
def eligibleCTRCount (recs : List CampaignRecord) : Nat :=
  ((recs.map (fun r => r.CampaignID)).toFinset.filter
    (fun id => 0 < ((recs.filter (fun r => decide (r.CampaignID = id))).map
      (fun r => r.Impressions)).sum)).card

/-- The number of distinct campaigns whose total conversions are positive. -/
def eligibleCPACount (recs : List CampaignRecord) : Nat :=
  ((recs.map (fun r => r.CampaignID)).toFinset.filter
    (fun id => 0 < ((recs.filter (fun r => decide (r.CampaignID = id))).map
      (fun r => r.Conversions)).sum)).card

/-- A record the input schema allows: a non-empty campaign id and non-negative numbers. -/
def WellFormed (r : CampaignRecord) : Prop :=
  r.CampaignID ≠ "" ∧ 0 ≤ r.Impressions ∧ 0 ≤ r.Clicks ∧ 0 ≤ r.Spend ∧ 0 ≤ r.Conversions

/-! ## Reference inputs -/

/-- The CSV of `TestAnalyzeCSV`. -/
def testInput : List CampaignRecord :=
  [ ⟨"CMP1", "2023-01-01", 1000, 10, 100, 2⟩,
    ⟨"CMP1", "2023-01-02", 1000, 20, 100, 3⟩,
    ⟨"CMP2", "2023-01-01", 500, 50, 50, 1⟩,
    ⟨"CMP3", "2023-01-01", 100, 5, 20, 0⟩,
    ⟨"CMP4", "2023-01-01", 2000, 200, 500, 10⟩,
    ⟨"CMP4", "2023-01-02", 2000, 200, 500, 15⟩ ]

/-- What `TestAnalyzeCSV` expects for CMP1. -/
def cmp1Metrics : CampaignMetrics := ⟨"CMP1", 2000, 30, 200, 5, 3 / 200, some 40⟩

/-- What `TestAnalyzeCSV` expects for CMP2. -/
def cmp2Metrics : CampaignMetrics := ⟨"CMP2", 500, 50, 50, 1, 1 / 10, some 50⟩

/-- What `TestAnalyzeCSV` expects for CMP3: no conversions, so no CPA. -/
def cmp3Metrics : CampaignMetrics := ⟨"CMP3", 100, 5, 20, 0, 1 / 20, none⟩

/-- What `TestAnalyzeCSV` expects for CMP4. -/
def cmp4Metrics : CampaignMetrics := ⟨"CMP4", 4000, 400, 1000, 25, 1 / 10, some 40⟩

/-- The result of `AnalyzeCSV` on `testInput` when ties keep the order of `groupBy`. -/
def testResult : AnalysisResult :=
  { TopCTR := [cmp2Metrics, cmp4Metrics, cmp3Metrics, cmp1Metrics]
    TopCPA := [cmp1Metrics, cmp4Metrics, cmp2Metrics] }

/-- The result of `AnalyzeCSV` on the records of `testInput` read in the opposite order, when
ties keep the order of `groupBy`. -/
def testResultReversed : AnalysisResult :=
  { TopCTR := [cmp4Metrics, cmp2Metrics, cmp3Metrics, cmp1Metrics]
    TopCPA := [cmp4Metrics, cmp1Metrics, cmp2Metrics] }

/-- A well-formed record with a conversion and spend but no impressions. -/
def noImpressionRecord : CampaignRecord := ⟨"CMP5", "2023-01-01", 0, 0, 10, 1⟩

/-- An input holding only `noImpressionRecord`. -/
def noImpressionInput : List CampaignRecord := [noImpressionRecord]

/-- The one row the query of `getTopCPA` has on `noImpressionInput`: its ctr is `NULL`. -/
def noImpressionRow : Row := ⟨"CMP5", 0, 0, 10, 1, none, some 10⟩

/-! ## The sort keys -/

theorem descNullsLast_antisymm {a b : Option ℚ} (hab : descNullsLast a b = true)
    (hba : descNullsLast b a = true) : a = b := by
  cases a <;> cases b <;> simp_all [descNullsLast]
  exact le_antisymm hba hab

theorem ascNullsLast_antisymm {a b : Option ℚ} (hab : ascNullsLast a b = true)
    (hba : ascNullsLast b a = true) : a = b := by
  cases a <;> cases b <;> simp_all [ascNullsLast]
  exact le_antisymm hab hba

/-! ## Grouping -/

theorem mem_groupKeys {recs : List CampaignRecord} {id : String} :
    id ∈ groupKeys recs ↔ ∃ r ∈ recs, r.CampaignID = id := by
  simp [groupKeys]

theorem nodup_groupKeys (recs : List CampaignRecord) : (groupKeys recs).Nodup :=
  List.nodup_dedup _

theorem aggregate_campaign_id (recs : List CampaignRecord) (id : String) :
    (aggregate recs id).campaign_id = id := rfl

theorem groupBy_campaign_ids (recs : List CampaignRecord) :
    (groupBy recs).map (fun g => g.campaign_id) = groupKeys recs := by
  simp [groupBy, List.map_map, Function.comp_def, aggregate_campaign_id]

theorem mem_groupBy {recs : List CampaignRecord} {g : Group} :
    g ∈ groupBy recs ↔ ∃ r ∈ recs, g = aggregate recs r.CampaignID := by
  simp only [groupBy, List.mem_map, mem_groupKeys]
  constructor
  · rintro ⟨id, ⟨r, hr, rfl⟩, rfl⟩
    exact ⟨r, hr, rfl⟩
  · rintro ⟨r, hr, rfl⟩
    exact ⟨r.CampaignID, ⟨r, hr, rfl⟩, rfl⟩

/-! ## The shared query shape -/

section RunQuery

variable (having : Group → Bool) (select : Group → Row) (order : Row → Row → Prop)
  [DecidableRel order] (e : Engine) (recs : List CampaignRecord) (limit : Nat)

theorem sortedRows_perm :
    (List.insertionSort order (e.arrange (((groupBy recs).filter having).map select))).Perm
      (((groupBy recs).filter having).map select) :=
  (List.perm_insertionSort order _).trans (e.arrange_perm _)

theorem runQuery_eq_take :
    runQuery having select order e recs limit =
      (List.insertionSort order
        (e.arrange (((groupBy recs).filter having).map select))).take limit := rfl

theorem mem_runQuery {r : Row} (hr : r ∈ runQuery having select order e recs limit) :
    ∃ rec ∈ recs, having (aggregate recs rec.CampaignID) = true ∧
      r = select (aggregate recs rec.CampaignID) := by
  have h1 := List.mem_of_mem_take hr
  have h2 := (sortedRows_perm having select order e recs).subset h1
  obtain ⟨g, hg, rfl⟩ := List.mem_map.1 h2
  obtain ⟨hg1, hg2⟩ := List.mem_filter.1 hg
  obtain ⟨rec, hrec, rfl⟩ := mem_groupBy.1 hg1
  exact ⟨rec, hrec, hg2, rfl⟩

theorem runQuery_length :
    (runQuery having select order e recs limit).length =
      min limit ((groupBy recs).filter having).length := by
  rw [runQuery_eq_take, List.length_take,
    (sortedRows_perm having select order e recs).length_eq, List.length_map]

theorem runQuery_sorted [IsTotal Row order] [IsTrans Row order] :
    (runQuery having select order e recs limit).Pairwise order :=
  (List.sorted_insertionSort order _).sublist (List.take_sublist _ _)

theorem runQuery_nodup (hsel : ∀ g, (select g).campaign_id = g.campaign_id) :
    ((runQuery having select order e recs limit).map (fun r => r.campaign_id)).Nodup := by
  have hrows : ((((groupBy recs).filter having).map select).map
      (fun r => r.campaign_id)).Nodup := by
    have hsub : (((groupBy recs).filter having).map (fun g => g.campaign_id)).Sublist
        ((groupBy recs).map (fun g => g.campaign_id)) :=
      (List.filter_sublist _).map _
    rw [groupBy_campaign_ids] at hsub
    have hnd := (nodup_groupKeys recs).sublist hsub
    simpa [List.map_map, Function.comp_def, hsel] using hnd
  have hsorted := ((sortedRows_perm having select order e recs).map
    (fun r => r.campaign_id)).nodup_iff.2 hrows
  exact hsorted.sublist ((List.take_sublist _ _).map _)

end RunQuery

/-! ## Scanning -/

theorem scanRow_ok {r : Row} {m : CampaignMetrics} (h : scanRow r = .ok m) : r = rowOf m := by
  obtain ⟨id, i, c, s, v, ctr, cpa⟩ := r
  obtain ⟨id', i', c', s', v', ctr', cpa'⟩ := m
  unfold scanRow at h
  split at h
  · cases ctr with
    | none => simp at h
    | some x =>
      simpa only [rowOf, Except.ok.injEq, CampaignMetrics.mk.injEq, Row.mk.injEq,
        Option.some.injEq] using h
  · simp at h

theorem executeQuery_ok {rows : List Row} {ms : List CampaignMetrics}
    (h : executeQuery rows = .ok ms) : rows = ms.map rowOf := by
  induction rows generalizing ms with
  | nil =>
    simp only [executeQuery, Except.ok.injEq] at h
    rw [← h]
    rfl
  | cons r rs ih =>
    unfold executeQuery at h
    cases hr : scanRow r with
    | error err => simp [hr] at h
    | ok m =>
      cases hrs : executeQuery rs with
      | error err => simp [hr, hrs] at h
      | ok ms0 =>
        simp only [hr, hrs, Except.ok.injEq] at h
        rw [← h, List.map_cons, ← scanRow_ok hr, ← ih hrs]

/-! ## The two queries -/

theorem ctrExpr_of_ne {g : Group} (h : g.total_impressions ≠ 0) :
    ctrExpr g = some ((g.total_clicks : ℚ) / (g.total_impressions : ℚ)) := by
  simp [ctrExpr, nullif, sqlDiv, h]

theorem ctrExpr_of_zero {g : Group} (h : g.total_impressions = 0) : ctrExpr g = none := by
  simp [ctrExpr, nullif, sqlDiv, h]

theorem cpaDivExpr_of_pos {g : Group} (h : 0 < g.total_conversions) :
    cpaDivExpr g = some (g.total_spend / (g.total_conversions : ℚ)) := by
  have h0 : g.total_conversions ≠ 0 := ne_of_gt h
  simp [cpaDivExpr, sqlDiv, h0]

theorem cpaCaseExpr_of_pos {g : Group} (h : 0 < g.total_conversions) :
    cpaCaseExpr g = some (g.total_spend / (g.total_conversions : ℚ)) := by
  have h0 : g.total_conversions ≠ 0 := ne_of_gt h
  simp [cpaCaseExpr, sqlDiv, h, h0]

theorem cpaCaseExpr_of_not_pos {g : Group} (h : ¬ 0 < g.total_conversions) :
    cpaCaseExpr g = none := by
  simp [cpaCaseExpr, h]

theorem mem_queryTopCTR {e : Engine} {recs : List CampaignRecord} {limit : Nat} {r : Row}
    (hr : r ∈ queryTopCTR e recs limit) :
    ∃ rec ∈ recs, 0 < sumImpressions recs rec.CampaignID ∧
      r = selectTopCTR (aggregate recs rec.CampaignID) := by
  obtain ⟨rec, hrec, hh, rfl⟩ := mem_runQuery _ _ _ _ _ _ hr
  exact ⟨rec, hrec, by simpa [havingImpressions, aggregate] using hh, rfl⟩

theorem mem_queryTopCPA {e : Engine} {recs : List CampaignRecord} {limit : Nat} {r : Row}
    (hr : r ∈ queryTopCPA e recs limit) :
    ∃ rec ∈ recs, 0 < sumConversions recs rec.CampaignID ∧
      r = selectTopCPA (aggregate recs rec.CampaignID) := by
  obtain ⟨rec, hrec, hh, rfl⟩ := mem_runQuery _ _ _ _ _ _ hr
  exact ⟨rec, hrec, by simpa [havingConversions, aggregate] using hh, rfl⟩

theorem mem_getTopCTR {e : Engine} {recs : List CampaignRecord} {limit : Nat}
    {ms : List CampaignMetrics} (h : getTopCTR e recs limit = .ok ms) {m : CampaignMetrics}
    (hm : m ∈ ms) :
    ∃ rec ∈ recs, 0 < sumImpressions recs rec.CampaignID ∧
      rowOf m = selectTopCTR (aggregate recs rec.CampaignID) := by
  have hrows := executeQuery_ok h
  apply @mem_queryTopCTR e recs limit
  rw [hrows]
  exact List.mem_map_of_mem _ hm

theorem mem_getTopCPA {e : Engine} {recs : List CampaignRecord} {limit : Nat}
    {ms : List CampaignMetrics} (h : getTopCPA e recs limit = .ok ms) {m : CampaignMetrics}
    (hm : m ∈ ms) :
    ∃ rec ∈ recs, 0 < sumConversions recs rec.CampaignID ∧
      rowOf m = selectTopCPA (aggregate recs rec.CampaignID) := by
  have hrows := executeQuery_ok h
  apply @mem_queryTopCPA e recs limit
  rw [hrows]
  exact List.mem_map_of_mem _ hm

theorem analyzeCSV_ok_iff {eCTR eCPA : Engine} {recs : List CampaignRecord}
    {res : AnalysisResult} :
    AnalyzeCSV eCTR eCPA recs = .ok res ↔
      getTopCTR eCTR recs 10 = .ok res.TopCTR ∧ getTopCPA eCPA recs 10 = .ok res.TopCPA := by
  obtain ⟨a, b⟩ := res
  unfold AnalyzeCSV
  cases h1 : getTopCTR eCTR recs 10 with
  | error err => simp
  | ok x =>
    cases h2 : getTopCPA eCPA recs 10 with
    | error err => simp
    | ok y => simp

theorem rowOf_eq_selectTopCTR {m : CampaignMetrics} {g : Group} (h : rowOf m = selectTopCTR g) :
    m.CampaignID = g.campaign_id ∧ m.TotalImpressions = g.total_impressions ∧
      m.TotalClicks = g.total_clicks ∧ m.TotalSpend = g.total_spend ∧
      m.TotalConversions = g.total_conversions ∧ some m.CTR = ctrExpr g ∧
      m.CPA = cpaCaseExpr g := by
  simpa [rowOf, selectTopCTR] using h

theorem rowOf_eq_selectTopCPA {m : CampaignMetrics} {g : Group} (h : rowOf m = selectTopCPA g) :
    m.CampaignID = g.campaign_id ∧ m.TotalImpressions = g.total_impressions ∧
      m.TotalClicks = g.total_clicks ∧ m.TotalSpend = g.total_spend ∧
      m.TotalConversions = g.total_conversions ∧ some m.CTR = ctrExpr g ∧
      m.CPA = cpaDivExpr g := by
  simpa [rowOf, selectTopCPA] using h

/-! ## Results on the reference input -/

theorem getTopCTR_testInput :
    getTopCTR scanOrderEngine testInput 10 = .ok testResult.TopCTR := by
  with_unfolding_all rfl

theorem getTopCPA_testInput :
    getTopCPA scanOrderEngine testInput 10 = .ok testResult.TopCPA := by
  with_unfolding_all rfl

theorem analyzeCSV_testInput :
    AnalyzeCSV scanOrderEngine scanOrderEngine testInput = .ok testResult :=
  analyzeCSV_ok_iff.2 ⟨getTopCTR_testInput, getTopCPA_testInput⟩

/-! ## Aggregation -/

/-- C1: every entry returned by `getTopCTR` or `getTopCPA` names a campaign that has at least
one input record, and its four totals are the sums of impressions, clicks, spend and
conversions over exactly the input records of that campaign. -/
theorem totals_are_sums_of_campaign_records (e : Engine) (recs : List CampaignRecord)
    (limit : Nat) (ms : List CampaignMetrics)
    (h : getTopCTR e recs limit = .ok ms ∨ getTopCPA e recs limit = .ok ms)
    (m : CampaignMetrics) (hm : m ∈ ms) :
    (∃ r ∈ recs, r.CampaignID = m.CampaignID) ∧
      m.TotalImpressions =
        ((recs.filter (fun r => decide (r.CampaignID = m.CampaignID))).map
          (fun r => r.Impressions)).sum ∧
      m.TotalClicks =
        ((recs.filter (fun r => decide (r.CampaignID = m.CampaignID))).map
          (fun r => r.Clicks)).sum ∧
      m.TotalSpend =
        ((recs.filter (fun r => decide (r.CampaignID = m.CampaignID))).map
          (fun r => r.Spend)).sum ∧
      m.TotalConversions =
        ((recs.filter (fun r => decide (r.CampaignID = m.CampaignID))).map
          (fun r => r.Conversions)).sum := by
  have key : ∃ rec ∈ recs, m.CampaignID = rec.CampaignID ∧
      m.TotalImpressions = sumImpressions recs rec.CampaignID ∧
      m.TotalClicks = sumClicks recs rec.CampaignID ∧
      m.TotalSpend = sumSpend recs rec.CampaignID ∧
      m.TotalConversions = sumConversions recs rec.CampaignID := by
    rcases h with h | h
    · obtain ⟨rec, hrec, _, hrow⟩ := mem_getTopCTR h hm
      obtain ⟨h1, h2, h3, h4, h5, _, _⟩ := rowOf_eq_selectTopCTR hrow
      exact ⟨rec, hrec, h1, h2, h3, h4, h5⟩
    · obtain ⟨rec, hrec, _, hrow⟩ := mem_getTopCPA h hm
      obtain ⟨h1, h2, h3, h4, h5, _, _⟩ := rowOf_eq_selectTopCPA hrow
      exact ⟨rec, hrec, h1, h2, h3, h4, h5⟩
  obtain ⟨rec, hrec, h1, h2, h3, h4, h5⟩ := key
  rw [h1]
  exact ⟨⟨rec, hrec, rfl⟩, h2, h3, h4, h5⟩

/-- C1 at the reference input: CMP1 in the CTR view carries the sums of its two records. -/
theorem totals_are_sums_of_campaign_records_witness :
    (getTopCTR scanOrderEngine testInput 10 = .ok testResult.TopCTR ∨
        getTopCPA scanOrderEngine testInput 10 = .ok testResult.TopCTR) ∧
      cmp1Metrics ∈ testResult.TopCTR ∧
      ((∃ r ∈ testInput, r.CampaignID = cmp1Metrics.CampaignID) ∧
        cmp1Metrics.TotalImpressions =
          ((testInput.filter (fun r => decide (r.CampaignID = cmp1Metrics.CampaignID))).map
            (fun r => r.Impressions)).sum ∧
        cmp1Metrics.TotalClicks =
          ((testInput.filter (fun r => decide (r.CampaignID = cmp1Metrics.CampaignID))).map
            (fun r => r.Clicks)).sum ∧
        cmp1Metrics.TotalSpend =
          ((testInput.filter (fun r => decide (r.CampaignID = cmp1Metrics.CampaignID))).map
            (fun r => r.Spend)).sum ∧
        cmp1Metrics.TotalConversions =
          ((testInput.filter (fun r => decide (r.CampaignID = cmp1Metrics.CampaignID))).map
            (fun r => r.Conversions)).sum) :=
  ⟨Or.inl getTopCTR_testInput, by simp [testResult],
    totals_are_sums_of_campaign_records scanOrderEngine testInput 10 testResult.TopCTR
      (Or.inl getTopCTR_testInput) cmp1Metrics (by simp [testResult])⟩

/-! ## Eligibility filters -/

/-- C2: every entry of `TopCPA` returned by `AnalyzeCSV` has positive total conversions and a
CPA that is present, and a campaign whose conversions sum to 0 over the input is not in
`TopCPA`. -/
theorem topCPA_has_conversions (eCTR eCPA : Engine) (recs : List CampaignRecord)
    (res : AnalysisResult) (h : AnalyzeCSV eCTR eCPA recs = .ok res) :
    (∀ m ∈ res.TopCPA, 0 < m.TotalConversions ∧ m.CPA ≠ none) ∧
      ∀ id : String,
        ((recs.filter (fun r => decide (r.CampaignID = id))).map
          (fun r => r.Conversions)).sum = 0 →
        id ∉ res.TopCPA.map (fun m => m.CampaignID) := by
  have hcpa := (analyzeCSV_ok_iff.1 h).2
  have key : ∀ m ∈ res.TopCPA, 0 < m.TotalConversions ∧ m.CPA ≠ none ∧
      m.TotalConversions = sumConversions recs m.CampaignID := by
    intro m hm
    obtain ⟨rec, _, hpos, hrow⟩ := mem_getTopCPA hcpa hm
    obtain ⟨h1, _, _, _, h5, _, h7⟩ := rowOf_eq_selectTopCPA hrow
    have hpos' : 0 < (aggregate recs rec.CampaignID).total_conversions := hpos
    refine ⟨by rw [h5]; exact hpos', ?_, ?_⟩
    · rw [h7, cpaDivExpr_of_pos hpos']
      simp
    · rw [h5, h1]
      rfl
  refine ⟨fun m hm => ⟨(key m hm).1, (key m hm).2.1⟩, ?_⟩
  intro id hid hmem
  obtain ⟨m, hm, rfl⟩ := List.mem_map.1 hmem
  obtain ⟨hpos, _, hsum⟩ := key m hm
  have : m.TotalConversions = 0 := by
    rw [hsum]
    exact hid
  omega

/-- C2 at the reference input: three entries, CMP3 (no conversions) is not among them. -/
theorem topCPA_has_conversions_witness :
    AnalyzeCSV scanOrderEngine scanOrderEngine testInput = .ok testResult ∧
      testResult.TopCPA.length = 3 ∧
      "CMP3" ∉ testResult.TopCPA.map (fun m => m.CampaignID) ∧
      ((∀ m ∈ testResult.TopCPA, 0 < m.TotalConversions ∧ m.CPA ≠ none) ∧
        ∀ id : String,
          ((testInput.filter (fun r => decide (r.CampaignID = id))).map
            (fun r => r.Conversions)).sum = 0 →
          id ∉ testResult.TopCPA.map (fun m => m.CampaignID)) :=
  ⟨analyzeCSV_testInput, rfl, by decide,
    topCPA_has_conversions scanOrderEngine scanOrderEngine testInput testResult
      analyzeCSV_testInput⟩

/-- C3: every entry of `TopCTR` returned by `AnalyzeCSV` has positive total impressions, and
its CTR is the quotient of total clicks by that non-zero total. -/
theorem topCTR_has_impressions (eCTR eCPA : Engine) (recs : List CampaignRecord)
    (res : AnalysisResult) (h : AnalyzeCSV eCTR eCPA recs = .ok res) :
    ∀ m ∈ res.TopCTR, 0 < m.TotalImpressions ∧
      m.CTR = (m.TotalClicks : ℚ) / (m.TotalImpressions : ℚ) := by
  have hctr := (analyzeCSV_ok_iff.1 h).1
  intro m hm
  obtain ⟨rec, _, hpos, hrow⟩ := mem_getTopCTR hctr hm
  obtain ⟨_, h2, h3, _, _, h6, _⟩ := rowOf_eq_selectTopCTR hrow
  have hpos' : 0 < (aggregate recs rec.CampaignID).total_impressions := hpos
  refine ⟨by rw [h2]; exact hpos', ?_⟩
  rw [ctrExpr_of_ne (ne_of_gt hpos')] at h6
  rw [h2, h3]
  exact Option.some.inj h6

/-- C3 at the reference input. -/
theorem topCTR_has_impressions_witness :
    AnalyzeCSV scanOrderEngine scanOrderEngine testInput = .ok testResult ∧
      ∀ m ∈ testResult.TopCTR, 0 < m.TotalImpressions ∧
        m.CTR = (m.TotalClicks : ℚ) / (m.TotalImpressions : ℚ) :=
  ⟨analyzeCSV_testInput,
    topCTR_has_impressions scanOrderEngine scanOrderEngine testInput testResult
      analyzeCSV_testInput⟩

/-! ## Cost per acquisition -/

/-- C7: for every entry returned by `getTopCTR` or `getTopCPA`, the CPA is present exactly when
total conversions are positive, a present CPA is total spend divided by total conversions, and
with no conversions the CPA is absent. -/
theorem cpa_present_iff_conversions (e : Engine) (recs : List CampaignRecord) (limit : Nat)
    (ms : List CampaignMetrics)
    (h : getTopCTR e recs limit = .ok ms ∨ getTopCPA e recs limit = .ok ms)
    (m : CampaignMetrics) (hm : m ∈ ms) :
    (m.CPA ≠ none ↔ 0 < m.TotalConversions) ∧
      (∀ x, m.CPA = some x → x = m.TotalSpend / (m.TotalConversions : ℚ)) ∧
      (m.TotalConversions = 0 → m.CPA = none) := by
  have key : (0 < m.TotalConversions →
        m.CPA = some (m.TotalSpend / (m.TotalConversions : ℚ))) ∧
      (¬ 0 < m.TotalConversions → m.CPA = none) := by
    rcases h with h | h
    · obtain ⟨rec, _, _, hrow⟩ := mem_getTopCTR h hm
      obtain ⟨_, _, _, h4, h5, _, h7⟩ := rowOf_eq_selectTopCTR hrow
      constructor
      · intro hpos
        rw [h5] at hpos
        rw [h7, cpaCaseExpr_of_pos hpos, h4, h5]
      · intro hnp
        rw [h5] at hnp
        rw [h7, cpaCaseExpr_of_not_pos hnp]
    · obtain ⟨rec, _, hpos, hrow⟩ := mem_getTopCPA h hm
      obtain ⟨_, _, _, h4, h5, _, h7⟩ := rowOf_eq_selectTopCPA hrow
      have hpos' : 0 < (aggregate recs rec.CampaignID).total_conversions := hpos
      constructor
      · intro _
        rw [h7, cpaDivExpr_of_pos hpos', h4, h5]
      · intro hnp
        rw [h5] at hnp
        exact absurd hpos' hnp
  obtain ⟨k1, k2⟩ := key
  refine ⟨⟨?_, ?_⟩, ?_, ?_⟩
  · intro hne
    by_contra hnp
    exact hne (k2 hnp)
  · intro hpos
    rw [k1 hpos]
    simp
  · intro x hx
    by_cases hpos : 0 < m.TotalConversions
    · rw [k1 hpos] at hx
      exact (Option.some.inj hx).symm
    · rw [k2 hpos] at hx
      cases hx
  · intro h0
    exact k2 (by omega)

/-- C7 at the reference input: CMP3 is in the CTR view with no CPA. -/
theorem cpa_present_iff_conversions_witness :
    (getTopCTR scanOrderEngine testInput 10 = .ok testResult.TopCTR ∨
        getTopCPA scanOrderEngine testInput 10 = .ok testResult.TopCTR) ∧
      cmp3Metrics ∈ testResult.TopCTR ∧ cmp3Metrics.CPA = none ∧
      cmp1Metrics.CPA = some 40 ∧
      ((cmp3Metrics.CPA ≠ none ↔ 0 < cmp3Metrics.TotalConversions) ∧
        (∀ x, cmp3Metrics.CPA = some x →
          x = cmp3Metrics.TotalSpend / (cmp3Metrics.TotalConversions : ℚ)) ∧
        (cmp3Metrics.TotalConversions = 0 → cmp3Metrics.CPA = none)) :=
  ⟨Or.inl getTopCTR_testInput, by simp [testResult], rfl, rfl,
    cpa_present_iff_conversions scanOrderEngine testInput 10 testResult.TopCTR
      (Or.inl getTopCTR_testInput) cmp3Metrics (by simp [testResult])⟩

/-! ## Ordering and uniqueness -/

theorem getTopCTR_pairwise {e : Engine} {recs : List CampaignRecord} {limit : Nat}
    {ms : List CampaignMetrics} (h : getTopCTR e recs limit = .ok ms) :
    ms.Pairwise (fun a b => b.CTR ≤ a.CTR) := by
  have hs : (queryTopCTR e recs limit).Pairwise ctrDesc := runQuery_sorted _ _ _ _ _ _
  rw [executeQuery_ok h, List.pairwise_map] at hs
  refine hs.imp ?_
  intro a b hab
  simpa [ctrDesc, rowOf, descNullsLast] using hab

theorem getTopCPA_pairwise {e : Engine} {recs : List CampaignRecord} {limit : Nat}
    {ms : List CampaignMetrics} (h : getTopCPA e recs limit = .ok ms) :
    ms.Pairwise (fun a b => ∃ x y, a.CPA = some x ∧ b.CPA = some y ∧ x ≤ y) := by
  have hs : (queryTopCPA e recs limit).Pairwise cpaAsc := runQuery_sorted _ _ _ _ _ _
  rw [executeQuery_ok h, List.pairwise_map] at hs
  have hsome : ∀ m ∈ ms, ∃ x, m.CPA = some x := by
    intro m hm
    obtain ⟨rec, _, hpos, hrow⟩ := mem_getTopCPA h hm
    obtain ⟨_, _, _, _, _, _, h7⟩ := rowOf_eq_selectTopCPA hrow
    have hpos' : 0 < (aggregate recs rec.CampaignID).total_conversions := hpos
    exact ⟨_, by rw [h7, cpaDivExpr_of_pos hpos']⟩
  refine (List.Pairwise.and_mem.1 hs).imp ?_
  rintro a b ⟨ha, hb, hab⟩
  obtain ⟨x, hx⟩ := hsome a ha
  obtain ⟨y, hy⟩ := hsome b hb
  refine ⟨x, y, hx, hy, ?_⟩
  simpa [cpaAsc, rowOf, ascNullsLast, hx, hy] using hab

/-- C4: `TopCTR` is sorted by CTR in non-increasing order and `TopCPA` is sorted by CPA in
non-decreasing order: for positions `i < j`, entry `j` of `TopCTR` has CTR at most that of
entry `i`, and entries `i` and `j` of `TopCPA` both carry a CPA, the first at most the second. -/
theorem views_are_sorted (eCTR eCPA : Engine) (recs : List CampaignRecord)
    (res : AnalysisResult) (h : AnalyzeCSV eCTR eCPA recs = .ok res) :
    (∀ (i j : Nat) (hi : i < res.TopCTR.length) (hj : j < res.TopCTR.length), i < j →
        (res.TopCTR[j]).CTR ≤ (res.TopCTR[i]).CTR) ∧
      (∀ (i j : Nat) (hi : i < res.TopCPA.length) (hj : j < res.TopCPA.length), i < j →
        ∃ x y, (res.TopCPA[i]).CPA = some x ∧ (res.TopCPA[j]).CPA = some y ∧ x ≤ y) := by
  obtain ⟨h1, h2⟩ := analyzeCSV_ok_iff.1 h
  exact ⟨List.pairwise_iff_getElem.1 (getTopCTR_pairwise h1),
    List.pairwise_iff_getElem.1 (getTopCPA_pairwise h2)⟩

/-- C4 at the reference input. -/
theorem views_are_sorted_witness :
    AnalyzeCSV scanOrderEngine scanOrderEngine testInput = .ok testResult ∧
      ((∀ (i j : Nat) (hi : i < testResult.TopCTR.length) (hj : j < testResult.TopCTR.length),
          i < j → (testResult.TopCTR[j]).CTR ≤ (testResult.TopCTR[i]).CTR) ∧
        (∀ (i j : Nat) (hi : i < testResult.TopCPA.length) (hj : j < testResult.TopCPA.length),
          i < j →
          ∃ x y, (testResult.TopCPA[i]).CPA = some x ∧ (testResult.TopCPA[j]).CPA = some y ∧
            x ≤ y)) :=
  ⟨analyzeCSV_testInput,
    views_are_sorted scanOrderEngine scanOrderEngine testInput testResult analyzeCSV_testInput⟩

theorem map_campaign_id_rowOf (ms : List CampaignMetrics) :
    (ms.map rowOf).map (fun r => r.campaign_id) = ms.map (fun m => m.CampaignID) := by
  simp [List.map_map, Function.comp_def, rowOf]

theorem getTopCTR_nodup {e : Engine} {recs : List CampaignRecord} {limit : Nat}
    {ms : List CampaignMetrics} (h : getTopCTR e recs limit = .ok ms) :
    (ms.map (fun m => m.CampaignID)).Nodup := by
  have hn : ((queryTopCTR e recs limit).map (fun r => r.campaign_id)).Nodup :=
    runQuery_nodup _ _ _ _ _ _ (fun _ => rfl)
  rwa [executeQuery_ok h, map_campaign_id_rowOf] at hn

theorem getTopCPA_nodup {e : Engine} {recs : List CampaignRecord} {limit : Nat}
    {ms : List CampaignMetrics} (h : getTopCPA e recs limit = .ok ms) :
    (ms.map (fun m => m.CampaignID)).Nodup := by
  have hn : ((queryTopCPA e recs limit).map (fun r => r.campaign_id)).Nodup :=
    runQuery_nodup _ _ _ _ _ _ (fun _ => rfl)
  rwa [executeQuery_ok h, map_campaign_id_rowOf] at hn

/-- C10: no campaign id occurs twice within `TopCTR` and none occurs twice within `TopCPA`,
however many input records share a campaign id. -/
theorem campaign_ids_are_unique (eCTR eCPA : Engine) (recs : List CampaignRecord)
    (res : AnalysisResult) (h : AnalyzeCSV eCTR eCPA recs = .ok res) :
    (res.TopCTR.map (fun m => m.CampaignID)).Nodup ∧
      (res.TopCPA.map (fun m => m.CampaignID)).Nodup := by
  obtain ⟨h1, h2⟩ := analyzeCSV_ok_iff.1 h
  exact ⟨getTopCTR_nodup h1, getTopCPA_nodup h2⟩

/-- C10 at the reference input, where CMP1 and CMP4 have two records each; CMP1 occurs once in
each of the two views. -/
theorem campaign_ids_are_unique_witness :
    AnalyzeCSV scanOrderEngine scanOrderEngine testInput = .ok testResult ∧
      ("CMP1" ∈ testResult.TopCTR.map (fun m => m.CampaignID) ∧
        "CMP1" ∈ testResult.TopCPA.map (fun m => m.CampaignID)) ∧
      ((testResult.TopCTR.map (fun m => m.CampaignID)).Nodup ∧
        (testResult.TopCPA.map (fun m => m.CampaignID)).Nodup) :=
  ⟨analyzeCSV_testInput, by decide,
    campaign_ids_are_unique scanOrderEngine scanOrderEngine testInput testResult
      analyzeCSV_testInput⟩

/-! ## Selection -/

theorem mem_groupKeys_of_recordsOf_ne_nil {recs : List CampaignRecord} {id : String}
    (h : recordsOf recs id ≠ []) : id ∈ groupKeys recs := by
  obtain ⟨r, hr⟩ := List.exists_mem_of_ne_nil _ h
  obtain ⟨hr1, hr2⟩ := List.mem_filter.1 hr
  exact mem_groupKeys.2 ⟨r, hr1, by simpa using hr2⟩

theorem mem_groupKeys_of_sumImpressions_pos {recs : List CampaignRecord} {id : String}
    (h : 0 < sumImpressions recs id) : id ∈ groupKeys recs := by
  apply mem_groupKeys_of_recordsOf_ne_nil
  intro hnil
  simp [sumImpressions, hnil] at h

theorem mem_groupKeys_of_sumConversions_pos {recs : List CampaignRecord} {id : String}
    (h : 0 < sumConversions recs id) : id ∈ groupKeys recs := by
  apply mem_groupKeys_of_recordsOf_ne_nil
  intro hnil
  simp [sumConversions, hnil] at h

theorem runQuery_excluded_after (having : Group → Bool) (select : Group → Row)
    (order : Row → Row → Prop) [DecidableRel order] [IsTotal Row order] [IsTrans Row order]
    (e : Engine) (recs : List CampaignRecord) (limit : Nat) {r0 : Row}
    (hr0 : r0 ∈ ((groupBy recs).filter having).map select)
    (hnot : r0 ∉ runQuery having select order e recs limit) :
    ∀ r ∈ runQuery having select order e recs limit, order r r0 := by
  intro r hr
  have hS : r0 ∈ List.insertionSort order
      (e.arrange (((groupBy recs).filter having).map select)) :=
    (sortedRows_perm having select order e recs).symm.subset hr0
  rw [← List.take_append_drop limit (List.insertionSort order
      (e.arrange (((groupBy recs).filter having).map select))), List.mem_append] at hS
  rcases hS with hS | hS
  · exact absurd hS hnot
  · exact (List.sorted_insertionSort order _).rel_of_mem_take_of_mem_drop hr hS

/-- C6: the rows kept are the best ones of a full sort.  A campaign with positive total
impressions that is not in the result of `getTopCTR` has a CTR no larger than that of any entry
of the result, and a campaign with positive total conversions that is not in the result of
`getTopCPA` has a CPA no smaller than that of any entry of the result. -/
theorem excluded_campaigns_rank_no_better (e : Engine) (recs : List CampaignRecord)
    (limit : Nat) :
    (∀ ms, getTopCTR e recs limit = .ok ms →
        ∀ id, 0 < sumImpressions recs id → id ∉ ms.map (fun m => m.CampaignID) →
          ∀ m ∈ ms, (sumClicks recs id : ℚ) / (sumImpressions recs id : ℚ) ≤ m.CTR) ∧
      (∀ ms, getTopCPA e recs limit = .ok ms →
        ∀ id, 0 < sumConversions recs id → id ∉ ms.map (fun m => m.CampaignID) →
          ∀ m ∈ ms, ∃ x, m.CPA = some x ∧
            x ≤ sumSpend recs id / (sumConversions recs id : ℚ)) := by
  constructor
  · intro ms h id hpos hid m hm
    have hrows := executeQuery_ok h
    have hpos' : 0 < (aggregate recs id).total_impressions := hpos
    have hr0 : selectTopCTR (aggregate recs id) ∈
        ((groupBy recs).filter havingImpressions).map selectTopCTR := by
      apply List.mem_map_of_mem
      refine List.mem_filter.2 ⟨List.mem_map_of_mem _ (mem_groupKeys_of_sumImpressions_pos hpos),
        ?_⟩
      simpa [havingImpressions] using hpos'
    have hnot : selectTopCTR (aggregate recs id) ∉ queryTopCTR e recs limit := by
      intro hin
      apply hid
      rw [← map_campaign_id_rowOf, ← hrows]
      exact List.mem_map.2 ⟨_, hin, rfl⟩
    have hm' : rowOf m ∈ queryTopCTR e recs limit := by
      rw [hrows]
      exact List.mem_map_of_mem _ hm
    have hord := runQuery_excluded_after havingImpressions selectTopCTR ctrDesc e recs limit
      hr0 hnot (rowOf m) hm'
    have hctr : (selectTopCTR (aggregate recs id)).ctr =
        some ((sumClicks recs id : ℚ) / (sumImpressions recs id : ℚ)) :=
      ctrExpr_of_ne (ne_of_gt hpos')
    simpa [ctrDesc, rowOf, hctr, descNullsLast] using hord
  · intro ms h id hpos hid m hm
    have hrows := executeQuery_ok h
    have hpos' : 0 < (aggregate recs id).total_conversions := hpos
    have hr0 : selectTopCPA (aggregate recs id) ∈
        ((groupBy recs).filter havingConversions).map selectTopCPA := by
      apply List.mem_map_of_mem
      refine List.mem_filter.2 ⟨List.mem_map_of_mem _ (mem_groupKeys_of_sumConversions_pos hpos),
        ?_⟩
      simpa [havingConversions] using hpos'
    have hnot : selectTopCPA (aggregate recs id) ∉ queryTopCPA e recs limit := by
      intro hin
      apply hid
      rw [← map_campaign_id_rowOf, ← hrows]
      exact List.mem_map.2 ⟨_, hin, rfl⟩
    have hm' : rowOf m ∈ queryTopCPA e recs limit := by
      rw [hrows]
      exact List.mem_map_of_mem _ hm
    have hord := runQuery_excluded_after havingConversions selectTopCPA cpaAsc e recs limit
      hr0 hnot (rowOf m) hm'
    have hcpa : (selectTopCPA (aggregate recs id)).cpa =
        some (sumSpend recs id / (sumConversions recs id : ℚ)) :=
      cpaDivExpr_of_pos hpos'
    obtain ⟨rec, _, hposm, hrow⟩ := mem_getTopCPA h hm
    obtain ⟨_, _, _, _, _, _, h7⟩ := rowOf_eq_selectTopCPA hrow
    have hposm' : 0 < (aggregate recs rec.CampaignID).total_conversions := hposm
    rw [cpaDivExpr_of_pos hposm'] at h7
    refine ⟨_, h7, ?_⟩
    simpa [cpaAsc, rowOf, hcpa, h7, ascNullsLast] using hord

/-- C6 at the reference input with limit 2: CMP1 is left out of the CTR view and CMP2 out of
the CPA view. -/
theorem excluded_campaigns_rank_no_better_witness :
    (getTopCTR scanOrderEngine testInput 2 = .ok [cmp2Metrics, cmp4Metrics] ∧
        0 < sumImpressions testInput "CMP1" ∧
        "CMP1" ∉ [cmp2Metrics, cmp4Metrics].map (fun m => m.CampaignID) ∧
        cmp2Metrics ∈ [cmp2Metrics, cmp4Metrics] ∧
        (sumClicks testInput "CMP1" : ℚ) / (sumImpressions testInput "CMP1" : ℚ)
          ≤ cmp2Metrics.CTR) ∧
      (getTopCPA scanOrderEngine testInput 2 = .ok [cmp1Metrics, cmp4Metrics] ∧
        0 < sumConversions testInput "CMP2" ∧
        "CMP2" ∉ [cmp1Metrics, cmp4Metrics].map (fun m => m.CampaignID) ∧
        cmp1Metrics ∈ [cmp1Metrics, cmp4Metrics] ∧
        ∃ x, cmp1Metrics.CPA = some x ∧
          x ≤ sumSpend testInput "CMP2" / (sumConversions testInput "CMP2" : ℚ)) :=
  ⟨⟨by with_unfolding_all rfl, by decide!, by decide, by simp,
      (excluded_campaigns_rank_no_better scanOrderEngine testInput 2).1
        [cmp2Metrics, cmp4Metrics] (by with_unfolding_all rfl) "CMP1" (by decide!) (by decide)
        cmp2Metrics (by simp)⟩,
    ⟨by with_unfolding_all rfl, by decide!, by decide, by simp,
      (excluded_campaigns_rank_no_better scanOrderEngine testInput 2).2
        [cmp1Metrics, cmp4Metrics] (by with_unfolding_all rfl) "CMP2" (by decide!) (by decide)
        cmp1Metrics (by simp)⟩⟩

/-! ## Result sizes -/

theorem eligible_length (recs : List CampaignRecord) (p : String → Bool) :
    ((recs.map (fun r => r.CampaignID)).toFinset.filter (fun id => p id = true)).card =
      ((groupKeys recs).filter p).length := by
  have hnd : ((groupKeys recs).filter p).Nodup := (nodup_groupKeys recs).filter _
  rw [← List.toFinset_card_of_nodup hnd, List.toFinset_filter, groupKeys]
  congr 2
  ext id
  simp

theorem eligibleCTRCount_eq (recs : List CampaignRecord) :
    eligibleCTRCount recs = ((groupBy recs).filter havingImpressions).length := by
  have h := eligible_length recs (havingImpressions ∘ aggregate recs)
  rw [groupBy, List.filter_map, List.length_map, ← h]
  simp [eligibleCTRCount, havingImpressions, aggregate, sumImpressions, recordsOf]

theorem eligibleCPACount_eq (recs : List CampaignRecord) :
    eligibleCPACount recs = ((groupBy recs).filter havingConversions).length := by
  have h := eligible_length recs (havingConversions ∘ aggregate recs)
  rw [groupBy, List.filter_map, List.length_map, ← h]
  simp [eligibleCPACount, havingConversions, aggregate, sumConversions, recordsOf]

/-- When the CTR view comes back it has `min limit k` entries for `k` distinct campaigns with
positive total impressions. -/
theorem getTopCTR_length_of_ok (e : Engine) (recs : List CampaignRecord) (limit : Nat)
    (ms : List CampaignMetrics) (h : getTopCTR e recs limit = .ok ms) :
    ms.length = min limit (eligibleCTRCount recs) := by
  have hlen := runQuery_length havingImpressions selectTopCTR ctrDesc e recs limit
  have hrows : queryTopCTR e recs limit = ms.map rowOf := executeQuery_ok h
  rw [← queryTopCTR, hrows, List.length_map] at hlen
  rw [hlen, eligibleCTRCount_eq]

/-- When the CPA view comes back it has `min limit k` entries for `k` distinct campaigns with
positive total conversions. -/
theorem getTopCPA_length_of_ok (e : Engine) (recs : List CampaignRecord) (limit : Nat)
    (ms : List CampaignMetrics) (h : getTopCPA e recs limit = .ok ms) :
    ms.length = min limit (eligibleCPACount recs) := by
  have hlen := runQuery_length havingConversions selectTopCPA cpaAsc e recs limit
  have hrows : queryTopCPA e recs limit = ms.map rowOf := executeQuery_ok h
  rw [← queryTopCPA, hrows, List.length_map] at hlen
  rw [hlen, eligibleCPACount_eq]

/-! ## A campaign with conversions and no impressions -/

theorem noImpressionInput_rows :
    ((groupBy noImpressionInput).filter havingConversions).map selectTopCPA =
      [noImpressionRow] := by
  with_unfolding_all rfl

theorem queryTopCPA_noImpressionInput (e : Engine) (limit : Nat) :
    queryTopCPA e noImpressionInput (limit + 1) = [noImpressionRow] := by
  unfold queryTopCPA runQuery
  rw [noImpressionInput_rows]
  have h := e.arrange_perm [noImpressionRow]
  rw [List.perm_singleton] at h
  rw [h]
  simp

theorem getTopCPA_noImpressionInput (e : Engine) (limit : Nat) :
    getTopCPA e noImpressionInput (limit + 1) = .error .scanRow := by
  unfold getTopCPA
  rw [queryTopCPA_noImpressionInput]
  rfl

/-- C5: on an input whose only campaign has a conversion and no impressions, one campaign is
eligible for the CPA view, so `min limit 1 = 1` entry is due for every positive limit, yet
`getTopCPA` fails on the scan and returns no entry. -/
theorem getTopCPA_returns_no_entry_without_impressions (e : Engine) (limit : Nat) :
    eligibleCPACount noImpressionInput = 1 ∧
      min (limit + 1) (eligibleCPACount noImpressionInput) = 1 ∧
      getTopCPA e noImpressionInput (limit + 1) = .error .scanRow := by
  have hc : eligibleCPACount noImpressionInput = 1 := by decide!
  refine ⟨hc, ?_, getTopCPA_noImpressionInput e limit⟩
  rw [hc]
  omega

theorem getTopCTR_noImpressionInput (e : Engine) (limit : Nat) :
    getTopCTR e noImpressionInput limit = .ok [] := by
  have hrows : ((groupBy noImpressionInput).filter havingImpressions).map selectTopCTR = [] := by
    with_unfolding_all rfl
  unfold getTopCTR queryTopCTR runQuery
  rw [hrows]
  have h := e.arrange_perm []
  rw [List.perm_nil] at h
  rw [h]
  simp [executeQuery]

/-- C8: `noImpressionRecord` is well-formed, and on the input holding just that record
`AnalyzeCSV` returns a failure: the row of the CPA view has a `NULL` ctr, which does not scan
into the `float64` field. -/
theorem analyzeCSV_fails_without_impressions (eCTR eCPA : Engine) :
    WellFormed noImpressionRecord ∧
      AnalyzeCSV eCTR eCPA noImpressionInput = .error (.topCPA .scanRow) := by
  constructor
  · unfold WellFormed noImpressionRecord
    decide!
  · unfold AnalyzeCSV
    rw [getTopCTR_noImpressionInput eCTR 10, getTopCPA_noImpressionInput eCPA 9]

/-- Every entry of the CPA view that comes back has non-zero total impressions and a CTR equal
to total clicks divided by total impressions. -/
theorem getTopCPA_ctr (e : Engine) (recs : List CampaignRecord) (limit : Nat)
    (ms : List CampaignMetrics) (h : getTopCPA e recs limit = .ok ms) :
    ∀ m ∈ ms, m.TotalImpressions ≠ 0 ∧
      m.CTR = (m.TotalClicks : ℚ) / (m.TotalImpressions : ℚ) := by
  intro m hm
  obtain ⟨rec, _, _, hrow⟩ := mem_getTopCPA h hm
  obtain ⟨_, h2, h3, _, _, h6, _⟩ := rowOf_eq_selectTopCPA hrow
  have hne : (aggregate recs rec.CampaignID).total_impressions ≠ 0 := by
    intro h0
    rw [ctrExpr_of_zero h0] at h6
    cases h6
  refine ⟨by rw [h2]; exact hne, ?_⟩
  rw [ctrExpr_of_ne hne] at h6
  rw [h2, h3]
  exact Option.some.inj h6

/-! ## Permuting the input -/

theorem recordsOf_perm {recs recs' : List CampaignRecord} (hp : recs'.Perm recs) (id : String) :
    (recordsOf recs' id).Perm (recordsOf recs id) :=
  hp.filter _

theorem aggregate_perm {recs recs' : List CampaignRecord} (hp : recs'.Perm recs) :
    aggregate recs' = aggregate recs := by
  funext id
  have h := recordsOf_perm hp id
  simp only [aggregate, sumImpressions, sumClicks, sumSpend, sumConversions]
  rw [(h.map (fun r => r.Impressions)).sum_eq, (h.map (fun r => r.Clicks)).sum_eq,
    (h.map (fun r => r.Spend)).sum_eq, (h.map (fun r => r.Conversions)).sum_eq]

theorem groupBy_perm {recs recs' : List CampaignRecord} (hp : recs'.Perm recs) :
    (groupBy recs').Perm (groupBy recs) := by
  unfold groupBy groupKeys
  rw [aggregate_perm hp]
  exact ((hp.map _).dedup).map _


theorem sortedRows_perm_of_perm (having : Group → Bool) (select : Group → Row)
    (order : Row → Row → Prop) [DecidableRel order] (e e' : Engine)
    {recs recs' : List CampaignRecord} (hp : recs'.Perm recs) :
    (List.insertionSort order (e'.arrange (((groupBy recs').filter having).map select))).Perm
      (List.insertionSort order (e.arrange (((groupBy recs).filter having).map select))) :=
  ((sortedRows_perm having select order e' recs').trans
    (((groupBy_perm hp).filter _).map _)).trans (sortedRows_perm having select order e recs).symm

/-- Whatever the engine and the order of the records, the sorted rows carry the same sort keys
position by position. -/
theorem sortedRows_keys_of_perm (having : Group → Bool) (select : Group → Row)
    (order : Row → Row → Prop) [DecidableRel order] [IsTotal Row order] [IsTrans Row order]
    (key : Row → Option ℚ) (R : Option ℚ → Option ℚ → Prop) [IsAntisymm (Option ℚ) R]
    (horder : ∀ a b, order a b → R (key a) (key b)) (e e' : Engine)
    {recs recs' : List CampaignRecord} (hp : recs'.Perm recs) :
    (List.insertionSort order
        (e'.arrange (((groupBy recs').filter having).map select))).map key =
      (List.insertionSort order
        (e.arrange (((groupBy recs).filter having).map select))).map key :=
  List.eq_of_perm_of_sorted ((sortedRows_perm_of_perm having select order e e' hp).map key)
    (List.pairwise_map.2 ((List.sorted_insertionSort order _).imp (horder _ _)))
    (List.pairwise_map.2 ((List.sorted_insertionSort order _).imp (horder _ _)))

theorem runQuery_keys_of_perm (having : Group → Bool) (select : Group → Row)
    (order : Row → Row → Prop) [DecidableRel order] [IsTotal Row order] [IsTrans Row order]
    (key : Row → Option ℚ) (R : Option ℚ → Option ℚ → Prop) [IsAntisymm (Option ℚ) R]
    (horder : ∀ a b, order a b → R (key a) (key b)) (e e' : Engine)
    {recs recs' : List CampaignRecord} (hp : recs'.Perm recs)
    (limit : Nat) :
    (runQuery having select order e' recs' limit).map key =
      (runQuery having select order e recs limit).map key := by
  rw [runQuery_eq_take, runQuery_eq_take, List.map_take, List.map_take,
    sortedRows_keys_of_perm having select order key R horder e e' hp]

/-- A row of the result that strictly outranks another row of the result, or any row of a
result shorter than the limit, is in the result for every engine and order of the records. -/
theorem runQuery_mem_of_perm (having : Group → Bool) (select : Group → Row)
    (order : Row → Row → Prop) [DecidableRel order] [IsTotal Row order] [IsTrans Row order]
    (key : Row → Option ℚ) (R : Option ℚ → Option ℚ → Prop) [IsAntisymm (Option ℚ) R]
    (horder : ∀ a b, order a b → R (key a) (key b)) (e e' : Engine)
    {recs recs' : List CampaignRecord} (hp : recs'.Perm recs)
    (limit : Nat) {a : Row} (ha : a ∈ runQuery having select order e recs limit)
    (hb : (∃ y ∈ runQuery having select order e recs limit, R (key a) (key y) ∧ key y ≠ key a) ∨
      (runQuery having select order e recs limit).length < limit) :
    a ∈ runQuery having select order e' recs' limit := by
  have hperm := sortedRows_perm_of_perm having select order e e' hp
  have hkeys := sortedRows_keys_of_perm having select order key R horder e e' hp
  have hsorted' := List.sorted_insertionSort order
    (e'.arrange (((groupBy recs').filter having).map select))
  rw [runQuery_eq_take] at ha hb ⊢
  have haS' := hperm.symm.subset (List.mem_of_mem_take ha)
  rw [← List.take_append_drop limit (List.insertionSort order
    (e'.arrange (((groupBy recs').filter having).map select))), List.mem_append] at haS'
  rcases haS' with h | hd
  · exact h
  · exfalso
    rcases hb with ⟨y, hy, hRy, hne⟩ | hlt
    · obtain ⟨q, hq⟩ := List.mem_iff_getElem?.1 hy
      rw [List.getElem?_take] at hq
      split at hq
      · rename_i hql
        have hk := congrArg (fun l => l[q]?) hkeys
        simp only [List.getElem?_map, hq, Option.map_some'] at hk
        obtain ⟨z, hz, hkz⟩ := Option.map_eq_some'.1 hk
        have hzt : z ∈ List.take limit (List.insertionSort order
            (e'.arrange (((groupBy recs').filter having).map select))) :=
          List.mem_iff_getElem?.2 ⟨q, by rw [List.getElem?_take, if_pos hql]; exact hz⟩
        have hR := horder _ _ (hsorted'.rel_of_mem_take_of_mem_drop hzt hd)
        rw [hkz] at hR
        exact hne (antisymm hR hRy)
      · cases hq
    · rw [List.length_take] at hlt
      have hlen := hperm.length_eq
      have hnil : List.drop limit (List.insertionSort order
          (e'.arrange (((groupBy recs').filter having).map select))) = [] :=
        List.drop_eq_nil_of_le (by omega)
      rw [hnil] at hd
      cases hd

/-- A row of the result whose sort key no other row of the result shares, and that strictly
outranks another row or stands in a result shorter than the limit, has the same position in
the result for every engine and order of the records. -/
theorem runQuery_position_of_perm (having : Group → Bool) (select : Group → Row)
    (order : Row → Row → Prop) [DecidableRel order] [IsTotal Row order] [IsTrans Row order]
    (key : Row → Option ℚ) (R : Option ℚ → Option ℚ → Prop) [IsAntisymm (Option ℚ) R]
    (horder : ∀ a b, order a b → R (key a) (key b)) (e e' : Engine)
    {recs recs' : List CampaignRecord} (hp : recs'.Perm recs)
    (limit : Nat) (hsel : ∀ g, (select g).campaign_id = g.campaign_id)
    {a : Row} {i : Nat} (hai : (runQuery having select order e recs limit)[i]? = some a)
    (huniq : ∀ x ∈ runQuery having select order e recs limit, key x = key a → x = a)
    (hb : (∃ y ∈ runQuery having select order e recs limit, R (key a) (key y) ∧ key y ≠ key a) ∨
      (runQuery having select order e recs limit).length < limit) :
    (runQuery having select order e' recs' limit)[i]? = some a := by
  have ha : a ∈ runQuery having select order e recs limit := List.mem_iff_getElem?.2 ⟨i, hai⟩
  have ha' := runQuery_mem_of_perm having select order key R horder e e' hp limit ha hb
  obtain ⟨p, hpa⟩ := List.mem_iff_getElem?.1 ha'
  have hk := congrArg (fun l => l[p]?)
    (runQuery_keys_of_perm having select order key R horder e e' hp limit)
  simp only [List.getElem?_map, hpa, Option.map_some'] at hk
  obtain ⟨x, hx, hkx⟩ := Option.map_eq_some'.1 hk.symm
  have hxa : x = a := huniq x (List.mem_iff_getElem?.2 ⟨p, hx⟩) hkx
  rw [hxa] at hx
  have hnd : (runQuery having select order e recs limit).Nodup :=
    (runQuery_nodup having select order e recs limit hsel).of_map _
  obtain ⟨hi, hia⟩ := List.getElem?_eq_some_iff.1 hai
  obtain ⟨hp', hpa'⟩ := List.getElem?_eq_some_iff.1 hx
  have hip : i = p :=
    (@List.Nodup.getElem_inj_iff _ _ hnd i hi p hp').1 (hia.trans hpa'.symm)
  rw [hip]
  exact hpa

theorem rowOf_injective {m m' : CampaignMetrics} (h : rowOf m' = rowOf m) : m' = m := by
  obtain ⟨id, i, c, s, v, ctr, cpa⟩ := m
  obtain ⟨id', i', c', s', v', ctr', cpa'⟩ := m'
  simpa [rowOf] using h

/-- What `runQuery_keys_of_perm`, `runQuery_mem_of_perm` and `runQuery_position_of_perm` say
about the scanned entries of two runs of one query. -/
theorem scanned_of_perm (having : Group → Bool) (select : Group → Row)
    (order : Row → Row → Prop) [DecidableRel order] [IsTotal Row order] [IsTrans Row order]
    (key : Row → Option ℚ) (R : Option ℚ → Option ℚ → Prop) [IsAntisymm (Option ℚ) R]
    (horder : ∀ a b, order a b → R (key a) (key b)) (e e' : Engine)
    {recs recs' : List CampaignRecord} (hp : recs'.Perm recs) (limit : Nat)
    (hsel : ∀ g, (select g).campaign_id = g.campaign_id) {ms ms' : List CampaignMetrics}
    (h : runQuery having select order e recs limit = ms.map rowOf)
    (h' : runQuery having select order e' recs' limit = ms'.map rowOf) :
    ms'.map (fun m => key (rowOf m)) = ms.map (fun m => key (rowOf m)) ∧
      (∀ m ∈ ms,
        ((∃ m₂ ∈ ms, R (key (rowOf m)) (key (rowOf m₂)) ∧ key (rowOf m₂) ≠ key (rowOf m)) ∨
          ms.length < limit) → m ∈ ms') ∧
      (∀ (i : Nat) (m : CampaignMetrics), ms[i]? = some m →
        (∀ x ∈ ms, key (rowOf x) = key (rowOf m) → x = m) →
        ((∃ m₂ ∈ ms, R (key (rowOf m)) (key (rowOf m₂)) ∧ key (rowOf m₂) ≠ key (rowOf m)) ∨
          ms.length < limit) → ms'[i]? = some m) := by
  have hbound : ∀ m : CampaignMetrics,
      ((∃ m₂ ∈ ms, R (key (rowOf m)) (key (rowOf m₂)) ∧ key (rowOf m₂) ≠ key (rowOf m)) ∨
        ms.length < limit) →
      ((∃ y ∈ runQuery having select order e recs limit,
          R (key (rowOf m)) (key y) ∧ key y ≠ key (rowOf m)) ∨
        (runQuery having select order e recs limit).length < limit) := by
    intro m hb
    rw [h, List.length_map]
    rcases hb with ⟨m₂, hm₂, hR, hne⟩ | hlt
    · exact Or.inl ⟨rowOf m₂, List.mem_map_of_mem _ hm₂, hR, hne⟩
    · exact Or.inr hlt
  refine ⟨?_, ?_, ?_⟩
  · have hk := runQuery_keys_of_perm having select order key R horder e e' hp limit
    rw [h, h', List.map_map, List.map_map] at hk
    exact hk
  · intro m hm hb
    have hin := runQuery_mem_of_perm having select order key R horder e e' hp limit
      (by rw [h]; exact List.mem_map_of_mem _ hm) (hbound m hb)
    rw [h'] at hin
    obtain ⟨m', hm', hrow⟩ := List.mem_map.1 hin
    rw [← rowOf_injective hrow]
    exact hm'
  · intro i m hi huniq hb
    have hpos := runQuery_position_of_perm having select order key R horder e e' hp limit hsel
      (a := rowOf m) (i := i) (by rw [h, List.getElem?_map, hi]; rfl)
      (by
        intro x hx hkx
        rw [h] at hx
        obtain ⟨x', hx', rfl⟩ := List.mem_map.1 hx
        rw [huniq x' hx' hkx])
      (hbound m hb)
    rw [h', List.getElem?_map] at hpos
    obtain ⟨m', hm', hrow⟩ := Option.map_eq_some'.1 hpos
    rw [hm', rowOf_injective hrow]

/-- Two runs of `getTopCTR`, on an input and on a permutation of it. -/
theorem getTopCTR_of_perm (e e' : Engine) {recs recs' : List CampaignRecord}
    (hp : recs'.Perm recs) (limit : Nat) {ms ms' : List CampaignMetrics}
    (h : getTopCTR e recs limit = .ok ms) (h' : getTopCTR e' recs' limit = .ok ms') :
    ms'.map (fun m => m.CTR) = ms.map (fun m => m.CTR) ∧
      (∀ m ∈ ms, ((∃ m₂ ∈ ms, m₂.CTR < m.CTR) ∨ ms.length < limit) →
        m.CampaignID ∈ ms'.map (fun x => x.CampaignID)) ∧
      (∀ (i : Nat) (hi : i < ms.length) (hi' : i < ms'.length),
        (∀ m ∈ ms, m.CTR = (ms[i]).CTR → m.CampaignID = (ms[i]).CampaignID) →
        ((∃ m₂ ∈ ms, m₂.CTR < (ms[i]).CTR) ∨ ms.length < limit) →
        (ms'[i]).CampaignID = (ms[i]).CampaignID) := by
  haveI : IsAntisymm (Option ℚ) (fun x y => descNullsLast x y = true) :=
    ⟨fun _ _ => descNullsLast_antisymm⟩
  obtain ⟨hk, hmem, hpos⟩ := scanned_of_perm havingImpressions selectTopCTR ctrDesc
    (fun r => r.ctr) (fun x y => descNullsLast x y = true) (fun _ _ hab => hab) e e' hp limit
    (fun _ => rfl) (executeQuery_ok h) (executeQuery_ok h')
  have hbound : ∀ m : CampaignMetrics, ((∃ m₂ ∈ ms, m₂.CTR < m.CTR) ∨ ms.length < limit) →
      ((∃ m₂ ∈ ms, descNullsLast (rowOf m).ctr (rowOf m₂).ctr = true ∧
          (rowOf m₂).ctr ≠ (rowOf m).ctr) ∨ ms.length < limit) := by
    intro m hb
    rcases hb with ⟨m₂, hm₂, hlt⟩ | hlen
    · refine Or.inl ⟨m₂, hm₂, ?_, ?_⟩
      · simpa [rowOf, descNullsLast] using le_of_lt hlt
      · simpa [rowOf] using ne_of_lt hlt
    · exact Or.inr hlen
  refine ⟨?_, ?_, ?_⟩
  · have hs : (ms'.map (fun m => m.CTR)).map some = (ms.map (fun m => m.CTR)).map some := by
      simpa [List.map_map, Function.comp_def, rowOf] using hk
    exact (List.map_injective_iff.2 (Option.some_injective ℚ)) hs
  · intro m hm hb
    exact List.mem_map_of_mem _ (hmem m hm (hbound m hb))
  · intro i hi hi' huniq hb
    have hnd := getTopCTR_nodup h
    have hget := hpos i (ms[i]) (List.getElem?_eq_getElem hi)
      (fun x hx hkx => List.inj_on_of_nodup_map hnd hx (List.getElem_mem hi)
        (huniq x hx (by simpa [rowOf] using hkx)))
      (hbound _ hb)
    obtain ⟨_, heq⟩ := List.getElem?_eq_some_iff.1 hget
    rw [heq]

/-- Two runs of `getTopCPA`, on an input and on a permutation of it. -/
theorem getTopCPA_of_perm (e e' : Engine) {recs recs' : List CampaignRecord}
    (hp : recs'.Perm recs) (limit : Nat) {ms ms' : List CampaignMetrics}
    (h : getTopCPA e recs limit = .ok ms) (h' : getTopCPA e' recs' limit = .ok ms') :
    ms'.map (fun m => m.CPA) = ms.map (fun m => m.CPA) ∧
      (∀ m ∈ ms,
        ((∃ m₂ ∈ ms, ∃ x y, m.CPA = some x ∧ m₂.CPA = some y ∧ x < y) ∨ ms.length < limit) →
        m.CampaignID ∈ ms'.map (fun x => x.CampaignID)) ∧
      (∀ (i : Nat) (hi : i < ms.length) (hi' : i < ms'.length),
        (∀ m ∈ ms, m.CPA = (ms[i]).CPA → m.CampaignID = (ms[i]).CampaignID) →
        ((∃ m₂ ∈ ms, ∃ x y, (ms[i]).CPA = some x ∧ m₂.CPA = some y ∧ x < y) ∨
          ms.length < limit) →
        (ms'[i]).CampaignID = (ms[i]).CampaignID) := by
  haveI : IsAntisymm (Option ℚ) (fun x y => ascNullsLast x y = true) :=
    ⟨fun _ _ => ascNullsLast_antisymm⟩
  obtain ⟨hk, hmem, hpos⟩ := scanned_of_perm havingConversions selectTopCPA cpaAsc
    (fun r => r.cpa) (fun x y => ascNullsLast x y = true) (fun _ _ hab => hab) e e' hp limit
    (fun _ => rfl) (executeQuery_ok h) (executeQuery_ok h')
  have hbound : ∀ m : CampaignMetrics,
      ((∃ m₂ ∈ ms, ∃ x y, m.CPA = some x ∧ m₂.CPA = some y ∧ x < y) ∨ ms.length < limit) →
      ((∃ m₂ ∈ ms, ascNullsLast (rowOf m).cpa (rowOf m₂).cpa = true ∧
          (rowOf m₂).cpa ≠ (rowOf m).cpa) ∨ ms.length < limit) := by
    intro m hb
    rcases hb with ⟨m₂, hm₂, x, y, hx, hy, hlt⟩ | hlen
    · refine Or.inl ⟨m₂, hm₂, ?_, ?_⟩
      · simpa [rowOf, hx, hy, ascNullsLast] using le_of_lt hlt
      · simpa [rowOf, hx, hy] using ne_of_gt hlt
    · exact Or.inr hlen
  refine ⟨?_, ?_, ?_⟩
  · simpa [rowOf] using hk
  · intro m hm hb
    exact List.mem_map_of_mem _ (hmem m hm (hbound m hb))
  · intro i hi hi' huniq hb
    have hnd := getTopCPA_nodup h
    have hget := hpos i (ms[i]) (List.getElem?_eq_getElem hi)
      (fun x hx hkx => List.inj_on_of_nodup_map hnd hx (List.getElem_mem hi)
        (huniq x hx (by simpa [rowOf] using hkx)))
      (hbound _ hb)
    obtain ⟨_, heq⟩ := List.getElem?_eq_some_iff.1 hget
    rw [heq]

theorem analyzeCSV_testInput_reverse :
    AnalyzeCSV scanOrderEngine scanOrderEngine testInput.reverse = .ok testResultReversed :=
  analyzeCSV_ok_iff.2 ⟨by with_unfolding_all rfl, by with_unfolding_all rfl⟩

/-- C9 fails as stated: reading the records of `testInput` in the opposite order is a
permutation of the input, yet CMP2 and CMP4 (equal CTR) swap places in `TopCTR`, CMP1 and CMP4
(equal CPA) swap places in `TopCPA`, and the two results differ; on the very same input an
engine that hands the groups over in another order also gives a different result. -/
theorem tie_order_is_not_fixed :
    testInput.reverse.Perm testInput ∧
      AnalyzeCSV scanOrderEngine scanOrderEngine testInput = .ok testResult ∧
      AnalyzeCSV scanOrderEngine scanOrderEngine testInput.reverse = .ok testResultReversed ∧
      testResult.TopCTR.map (fun m => m.CampaignID) = ["CMP2", "CMP4", "CMP3", "CMP1"] ∧
      testResultReversed.TopCTR.map (fun m => m.CampaignID) = ["CMP4", "CMP2", "CMP3", "CMP1"] ∧
      testResult.TopCPA.map (fun m => m.CampaignID) = ["CMP1", "CMP4", "CMP2"] ∧
      testResultReversed.TopCPA.map (fun m => m.CampaignID) = ["CMP4", "CMP1", "CMP2"] ∧
      AnalyzeCSV scanOrderEngine scanOrderEngine testInput.reverse ≠
        AnalyzeCSV scanOrderEngine scanOrderEngine testInput ∧
      AnalyzeCSV reverseOrderEngine reverseOrderEngine testInput ≠
        AnalyzeCSV scanOrderEngine scanOrderEngine testInput := by
  have hrev : AnalyzeCSV reverseOrderEngine reverseOrderEngine testInput =
      .ok testResultReversed :=
    analyzeCSV_ok_iff.2 ⟨by with_unfolding_all rfl, by with_unfolding_all rfl⟩
  have hne : testResultReversed ≠ testResult := by decide!
  refine ⟨List.reverse_perm _, analyzeCSV_testInput, analyzeCSV_testInput_reverse, rfl, rfl,
    rfl, rfl, ?_, ?_⟩
  · rw [analyzeCSV_testInput_reverse, analyzeCSV_testInput]
    exact fun h => hne (Except.ok.inj h)
  · rw [hrev, analyzeCSV_testInput]
    exact fun h => hne (Except.ok.inj h)

/-- C9, amended: take two runs of `AnalyzeCSV` that return, one on an input and one on any
permutation of it, with any engines.  Every campaign has the same four aggregate sums (spend as
an exact rational).  `TopCTR` carries the same CTR values and `TopCPA` the same CPA values
position by position, ties included.  An entry that has a strictly larger CTR (a strictly
smaller CPA) than some entry of its view, or that stands in a view of fewer than 10 entries, is
in the same view of the other run.  If moreover no other entry of the view has the same
returned CTR (CPA), the other run has the same campaign at the same position.  Only the order
among campaigns with equal returned CTR (CPA) is left open, and with it which of them fill the
last places of a full view.  The conditions are on the values the runs return; the statements
on CPA take total spend as an exact rational. -/
theorem analysis_is_permutation_invariant_up_to_ties (eCTR eCPA eCTR' eCPA' : Engine)
    (recs recs' : List CampaignRecord) (hp : recs'.Perm recs) (res res' : AnalysisResult)
    (h : AnalyzeCSV eCTR eCPA recs = .ok res) (h' : AnalyzeCSV eCTR' eCPA' recs' = .ok res') :
    (∀ id, sumImpressions recs' id = sumImpressions recs id ∧
        sumClicks recs' id = sumClicks recs id ∧ sumSpend recs' id = sumSpend recs id ∧
        sumConversions recs' id = sumConversions recs id) ∧
      res'.TopCTR.map (fun m => m.CTR) = res.TopCTR.map (fun m => m.CTR) ∧
      res'.TopCPA.map (fun m => m.CPA) = res.TopCPA.map (fun m => m.CPA) ∧
      (∀ m ∈ res.TopCTR,
        ((∃ m₂ ∈ res.TopCTR, m₂.CTR < m.CTR) ∨ res.TopCTR.length < 10) →
        m.CampaignID ∈ res'.TopCTR.map (fun x => x.CampaignID)) ∧
      (∀ m ∈ res.TopCPA,
        ((∃ m₂ ∈ res.TopCPA, ∃ x y, m.CPA = some x ∧ m₂.CPA = some y ∧ x < y) ∨
          res.TopCPA.length < 10) →
        m.CampaignID ∈ res'.TopCPA.map (fun x => x.CampaignID)) ∧
      (∀ (i : Nat) (hi : i < res.TopCTR.length) (hi' : i < res'.TopCTR.length),
        (∀ m ∈ res.TopCTR, m.CTR = (res.TopCTR[i]).CTR →
          m.CampaignID = (res.TopCTR[i]).CampaignID) →
        ((∃ m₂ ∈ res.TopCTR, m₂.CTR < (res.TopCTR[i]).CTR) ∨ res.TopCTR.length < 10) →
        (res'.TopCTR[i]).CampaignID = (res.TopCTR[i]).CampaignID) ∧
      (∀ (i : Nat) (hi : i < res.TopCPA.length) (hi' : i < res'.TopCPA.length),
        (∀ m ∈ res.TopCPA, m.CPA = (res.TopCPA[i]).CPA →
          m.CampaignID = (res.TopCPA[i]).CampaignID) →
        ((∃ m₂ ∈ res.TopCPA, ∃ x y, (res.TopCPA[i]).CPA = some x ∧ m₂.CPA = some y ∧ x < y) ∨
          res.TopCPA.length < 10) →
        (res'.TopCPA[i]).CampaignID = (res.TopCPA[i]).CampaignID) := by
  obtain ⟨h1, h2⟩ := analyzeCSV_ok_iff.1 h
  obtain ⟨h1', h2'⟩ := analyzeCSV_ok_iff.1 h'
  obtain ⟨a1, a2, a3⟩ := getTopCTR_of_perm eCTR eCTR' hp 10 h1 h1'
  obtain ⟨b1, b2, b3⟩ := getTopCPA_of_perm eCPA eCPA' hp 10 h2 h2'
  refine ⟨?_, a1, b1, a2, b2, a3, b3⟩
  intro id
  have hagg := congrFun (aggregate_perm hp) id
  simpa [aggregate] using hagg

/-- C9, amended, at the reference input read in both orders, where CMP2 and CMP4 tie on CTR and
CMP1 and CMP4 tie on CPA: CMP3 and CMP1 keep places 2 and 3 of `TopCTR` and CMP2 keeps place 2
of `TopCPA`, as `TestAnalyzeCSV` expects. -/
theorem analysis_is_permutation_invariant_up_to_ties_witness :
    testInput.reverse.Perm testInput ∧
      AnalyzeCSV scanOrderEngine scanOrderEngine testInput = .ok testResult ∧
      AnalyzeCSV scanOrderEngine scanOrderEngine testInput.reverse = .ok testResultReversed ∧
      (testResult.TopCTR[2]).CampaignID = "CMP3" ∧
      (testResultReversed.TopCTR[2]).CampaignID = (testResult.TopCTR[2]).CampaignID ∧
      (testResult.TopCTR[3]).CampaignID = "CMP1" ∧
      (testResultReversed.TopCTR[3]).CampaignID = (testResult.TopCTR[3]).CampaignID ∧
      (testResult.TopCPA[2]).CampaignID = "CMP2" ∧
      (testResultReversed.TopCPA[2]).CampaignID = (testResult.TopCPA[2]).CampaignID ∧
      testResultReversed.TopCTR.map (fun m => m.CTR) = testResult.TopCTR.map (fun m => m.CTR) ∧
      testResultReversed.TopCPA.map (fun m => m.CPA) = testResult.TopCPA.map (fun m => m.CPA) :=
  ⟨List.reverse_perm _, analyzeCSV_testInput, analyzeCSV_testInput_reverse, rfl,
    (analysis_is_permutation_invariant_up_to_ties scanOrderEngine scanOrderEngine
      scanOrderEngine scanOrderEngine testInput testInput.reverse (List.reverse_perm _)
      testResult testResultReversed analyzeCSV_testInput analyzeCSV_testInput_reverse).2.2.2.2.2.1
      2 (by decide) (by decide) (by decide!) (Or.inr (by decide)),
    rfl,
    (analysis_is_permutation_invariant_up_to_ties scanOrderEngine scanOrderEngine
      scanOrderEngine scanOrderEngine testInput testInput.reverse (List.reverse_perm _)
      testResult testResultReversed analyzeCSV_testInput analyzeCSV_testInput_reverse).2.2.2.2.2.1
      3 (by decide) (by decide) (by decide!) (Or.inr (by decide)),
    rfl,
    (analysis_is_permutation_invariant_up_to_ties scanOrderEngine scanOrderEngine
      scanOrderEngine scanOrderEngine testInput testInput.reverse (List.reverse_perm _)
      testResult testResultReversed analyzeCSV_testInput analyzeCSV_testInput_reverse).2.2.2.2.2.2
      2 (by decide) (by decide) (by decide!) (Or.inr (by decide)),
    (analysis_is_permutation_invariant_up_to_ties scanOrderEngine scanOrderEngine
      scanOrderEngine scanOrderEngine testInput testInput.reverse (List.reverse_perm _)
      testResult testResultReversed analyzeCSV_testInput analyzeCSV_testInput_reverse).2.1,
    (analysis_is_permutation_invariant_up_to_ties scanOrderEngine scanOrderEngine
      scanOrderEngine scanOrderEngine testInput testInput.reverse (List.reverse_perm _)
      testResult testResultReversed analyzeCSV_testInput analyzeCSV_testInput_reverse).2.2.1⟩

/-- On the reference input with limit 10 the views have 4 and 3 entries. -/
theorem testInput_view_lengths :
    getTopCTR scanOrderEngine testInput 10 = .ok testResult.TopCTR ∧
      getTopCPA scanOrderEngine testInput 10 = .ok testResult.TopCPA ∧
      testResult.TopCTR.length = 4 ∧ testResult.TopCPA.length = 3 :=
  ⟨getTopCTR_testInput, getTopCPA_testInput, rfl, rfl⟩

end AdsAnalytics
